import Mathlib

/-!
Verification of the configuration-resolution and log-level-control core of
the bun-fastify-template service.

The definitions below are a shallow embedding of the TypeScript source:
`config.ts` (defaults, env loader, CLI options, TOML file loader, deep merge,
`loadFullConfig`), `logger.ts` (category log-level registry and formatter),
the `/api/log-level` HTTP handler, and `db.ts` (`transaction`, `getDbPath`).
JavaScript numbers that can be `NaN` are modelled by `JsNumber`; parsed TOML
documents by the `JsValue` universe; the file system at the config path by
`FileState`; exceptions by `Except String`.
-/

/-- A JavaScript number as used for `server.port`: either a proper integer or
`NaN` (which `parseInt` yields on non-numeric input). -/
inductive JsNumber where
  | nan : JsNumber
  | int : Int → JsNumber
deriving DecidableEq, Repr

/-- Model of the JavaScript builtin `parseInt(s, 10)`: skip leading
whitespace, read an optional sign and then the longest prefix of decimal
digits; `NaN` when no digit is found. -/
def parseIntJS (s : String) : JsNumber :=
  let cs := s.toList.dropWhile (fun c => c = ' ' || c = '\t' || c = '\n' || c = '\r')
  let (sign, cs) : Int × List Char :=
    match cs with
    | '-' :: rest => (-1, rest)
    | '+' :: rest => (1, rest)
    | rest => (1, rest)
  let digits := cs.takeWhile Char.isDigit
  if digits.isEmpty then JsNumber.nan
  else JsNumber.int (sign * (digits.foldl (fun acc c => acc * 10 + (c.toNat - '0'.toNat)) 0 : Nat))

/-- `database` section of the resolved configuration. -/
structure DbConfig where
  url : String
deriving DecidableEq, Repr

/-- `server` section of the resolved configuration. -/
structure ServerConfig where
  host : String
  port : JsNumber
deriving DecidableEq, Repr

/-- `log` section of the resolved configuration. -/
structure LogConfig where
  level : String
deriving DecidableEq, Repr

/-- The fully resolved `AppConfig`. -/
structure AppConfig where
  database : DbConfig
  server : ServerConfig
  log : LogConfig
deriving DecidableEq, Repr

/-- `database` section with every field optional. -/
structure PartialDbConfig where
  url : Option String
deriving DecidableEq, Repr

/-- `server` section with every field optional. -/
structure PartialServerConfig where
  host : Option String
  port : Option JsNumber
deriving DecidableEq, Repr

/-- `log` section with every field optional. -/
structure PartialLogConfig where
  level : Option String
deriving DecidableEq, Repr

/-- `Partial<AppConfig>`: every field and nested section optional. -/
structure PartialAppConfig where
  database : Option PartialDbConfig
  server : Option PartialServerConfig
  log : Option PartialLogConfig
deriving DecidableEq, Repr

/-- The partial config with nothing set (the literal `{}` in the source). -/
def emptyPartialConfig : PartialAppConfig :=
  { database := none, server := none, log := none }

/-- `DEFAULT_CONFIG` from `config.ts`. -/
def DEFAULT_CONFIG : AppConfig :=
  { database := { url := "app.db" }
    server := { host := "0.0.0.0", port := JsNumber.int 3000 }
    log := { level := "info" } }

/-- `deepMerge(defaultConfig, userConfig)` from `config.ts`, specialised to
the fixed `AppConfig` shape: a nested section present in the override is
merged field by field (both sides are non-array objects, so the source
recurses); a field or section absent from the override leaves the
accumulated value untouched; present scalar fields are replaced wholesale. -/
def deepMerge (d : AppConfig) (u : PartialAppConfig) : AppConfig :=
  { database :=
      match u.database with
      | some p => { url := p.url.getD d.database.url }
      | none => d.database
    server :=
      match u.server with
      | some p => { host := p.host.getD d.server.host, port := p.port.getD d.server.port }
      | none => d.server
    log :=
      match u.log with
      | some p => { level := p.level.getD d.log.level }
      | none => d.log }

/-- Values produced by parsing a TOML document, as seen by the JavaScript
field checks (`typeof`). TOML cannot produce `null` or `undefined`. -/
inductive JsValue where
  | str : String → JsValue
  | num : Int → JsValue
  | boolVal : Bool → JsValue
  | obj : List (String × JsValue) → JsValue
  | arr : List JsValue → JsValue
deriving Repr

/-- First-match association lookup in a parsed object's field list. -/
def lookupField : List (String × JsValue) → String → Option JsValue
  | [], _ => none
  | (k, v) :: rest, key => if k = key then some v else lookupField rest key

/-- The JavaScript test `typeof v === "object" && v !== null`: true for
objects and arrays. -/
def isObjectJS : JsValue → Bool
  | JsValue.obj _ => true
  | JsValue.arr _ => true
  | _ => false

/-- Field access `v[key]` on a parsed value: only real objects have fields. -/
def getField (v : JsValue) (key : String) : Option JsValue :=
  match v with
  | JsValue.obj fields => lookupField fields key
  | _ => none

/-- The state of the file system at the configured path: the file is absent,
present but unreadable/unparseable, or parses to a TOML document (a list of
top-level key/value pairs). -/
inductive FileState where
  | absent : FileState
  | invalid : FileState
  | valid : List (String × JsValue) → FileState
deriving Repr

/-- Field extraction of `parseTomlFile` on a successfully parsed document:
`database` is kept only when `database.url` is a string; a present `server`
table always yields a full section, substituting `DEFAULT_CONFIG` values for
a missing or wrongly typed `host`/`port`; `log` is kept only when
`log.level` is a string. -/
def extractPartialConfig (doc : List (String × JsValue)) : PartialAppConfig :=
  let database :=
    match lookupField doc "database" with
    | some v =>
      if isObjectJS v then
        match getField v "url" with
        | some (JsValue.str s) => some { url := some s }
        | _ => none
      else none
    | none => none
  let server :=
    match lookupField doc "server" with
    | some v =>
      if isObjectJS v then
        some { host := some (match getField v "host" with
                             | some (JsValue.str s) => s
                             | _ => DEFAULT_CONFIG.server.host)
               port := some (match getField v "port" with
                             | some (JsValue.num n) => JsNumber.int n
                             | _ => DEFAULT_CONFIG.server.port) }
      else none
    | none => none
  let log :=
    match lookupField doc "log" with
    | some v =>
      if isObjectJS v then
        match getField v "level" with
        | some (JsValue.str s) => some { level := some s }
        | _ => none
      else none
    | none => none
  { database := database, server := server, log := log }

/-- `parseTomlFile(filePath)` from `config.ts`: returns `{}` when the file
does not exist; throws `Failed to parse config file ...` when reading or
parsing fails; otherwise extracts the typed fields from the document. -/
def parseTomlFile : FileState → Except String PartialAppConfig
  | FileState.absent => Except.ok emptyPartialConfig
  | FileState.invalid => Except.error "Failed to parse config file"
  | FileState.valid doc => Except.ok (extractPartialConfig doc)

/-- The environment variables the loader reads; `none` means unset. -/
structure Env where
  DB_PATH : Option String
  HOST : Option String
  PORT : Option String
  LOG_LEVEL : Option String
deriving Repr

/-- JavaScript truthiness of an optional environment string: set and
non-empty. -/
def envTruthy : Option String → Bool
  | some s => !(s = "")
  | none => false

/-- `loadConfigFromEnv()` from `config.ts`: maps `DB_PATH`, `HOST`, `PORT`,
`LOG_LEVEL` to config fields, skipping falsy (unset or empty) variables;
`PORT` goes through `parseInt(..., 10)`. -/
def loadConfigFromEnv (e : Env) : PartialAppConfig :=
  let database :=
    match e.DB_PATH with
    | some s => if s = "" then none else some { url := some s }
    | none => none
  let server :=
    if envTruthy e.HOST || envTruthy e.PORT then
      some { host := match e.HOST with
                     | some s => if s = "" then none else some s
                     | none => none
             port := match e.PORT with
                     | some s => if s = "" then none else some (parseIntJS s)
                     | none => none }
    else none
  let log :=
    match e.LOG_LEVEL with
    | some s => if s = "" then none else some { level := some s }
    | none => none
  { database := database, server := server, log := log }

/-- The CLI flags actually passed on the command line: the value following
`--config`/`-c` and `--database`/`-d`, when present. -/
structure CliArgs where
  config : Option String
  database : Option String
deriving Repr

/-- The options object `parseCliArgs` resolves to: both fields always
populated. -/
structure CliOptions where
  configFile : String
  database : String
deriving DecidableEq, Repr

/-- `parseCliArgs` from `config.ts`: the cmd-ts options carry baked-in
defaults (`config.toml`, `app.db`), so the result is always fully
populated. -/
def parseCliArgs (a : CliArgs) : CliOptions :=
  { configFile := a.config.getD "config.toml"
    database := a.database.getD "app.db" }

/-- The CLI-derived partial config built inside `loadFullConfig`: always a
present `database.url` (step 3 of the source). -/
def cliPartialConfig (cli : CliOptions) : PartialAppConfig :=
  { database := some { url := some cli.database }, server := none, log := none }

/-- `loadFullConfig(envConfig, cliOptions)` from `config.ts`: defaults, then
env, then CLI, then the config file, each applied by `deepMerge`; a failure
of `parseTomlFile` is caught, a warning printed (the returned flag), and an
empty file layer used instead. The `cli` field the source attaches to the
returned record is the unchanged `cliOptions` argument and is omitted here;
`file` is the file-system state at `cliOptions.configFile`. -/
def loadFullConfig (envConfig : PartialAppConfig) (cli : CliOptions)
    (file : FileState) : AppConfig × Bool :=
  let config := DEFAULT_CONFIG
  let config := deepMerge config envConfig
  let config := deepMerge config (cliPartialConfig cli)
  match parseTomlFile file with
  | Except.ok fileConfig => (deepMerge config fileConfig, false)
  | Except.error _ => (deepMerge config emptyPartialConfig, true)

/-- `getDbPath()` from `db.ts`: `process.env.DB_PATH || "./data/app.db"`,
reading the environment directly rather than the resolved config. -/
def getDbPath (e : Env) : String :=
  match e.DB_PATH with
  | some s => if s = "" then "./data/app.db" else s
  | none => "./data/app.db"

/-- The log-level registry from `logger.ts`: the module-level
`categoryLogLevels` map (insertion-ordered, keyed by the comma-joined
category) and the module-level `currentLogLevel` global default. -/
structure LoggerState where
  categoryLogLevels : List (String × String)
  currentLogLevel : String
deriving DecidableEq, Repr

/-- `categoryToKey` from `logger.ts`: join the category segments with a
comma. -/
def categoryToKey (category : List String) : String :=
  String.intercalate "," category

/-- JavaScript `Map.prototype.set`: overwrite an existing key in place,
otherwise append at the end (insertion order is preserved). -/
def mapSet (m : List (String × String)) (k v : String) : List (String × String) :=
  if m.any (fun p => p.1 = k) then
    m.map (fun p => if p.1 = k then (k, v) else p)
  else m ++ [(k, v)]

/-- Splitting a character list at commas (helper for the model of the
JavaScript builtin `String.prototype.split(",")`). -/
def splitCommaAux : List Char → List Char → List (List Char)
  | [], acc => [acc.reverse]
  | c :: rest, acc =>
    if c = ',' then acc.reverse :: splitCommaAux rest []
    else splitCommaAux rest (c :: acc)

/-- Model of the JavaScript builtin `s.split(",")`: the (possibly empty)
segments between commas; the empty string yields `[""]`. -/
def jsSplitComma (s : String) : List String :=
  (splitCommaAux s.toList []).map (fun cs => String.mk cs)

/-- Model of the JavaScript builtin `s.toUpperCase()` (ASCII). -/
def jsToUpperCase (s : String) : String :=
  String.mk (s.toList.map Char.toUpper)

/-- `setLogLevel(level, category?)` from `logger.ts`: a non-empty category
updates that category's map entry; otherwise the global default is set.
(The subsequent `configure` call replays `buildLoggersConfig` of the new
state.) -/
def setLogLevel (st : LoggerState) (level : String)
    (category : Option (List String)) : LoggerState :=
  match category with
  | some c =>
    if 0 < c.length then
      { st with categoryLogLevels := mapSet st.categoryLogLevels (categoryToKey c) level }
    else
      { st with currentLogLevel := level }
  | none => { st with currentLogLevel := level }

/-- `getLogLevel()` from `logger.ts`: the current global default. -/
def getLogLevel (st : LoggerState) : String :=
  st.currentLogLevel

/-- One entry of the `loggers` array handed to `configure`. -/
structure LoggerConfigEntry where
  category : List String
  lowestLevel : String
deriving DecidableEq, Repr

/-- The `loggersConfig` array `setLogLevel` rebuilds on every call: the root
entry (empty category, current global default) followed by one entry per
stored category override, the key split back on commas with empty segments
dropped. -/
def buildLoggersConfig (st : LoggerState) : List LoggerConfigEntry :=
  { category := ([] : List String), lowestLevel := st.currentLogLevel } ::
    st.categoryLogLevels.map (fun p =>
      { category := (jsSplitComma p.1).filter (fun s => 0 < s.length)
        lowestLevel := p.2 })

/-- Modelled from the spec: the effective minimum severity for a record
category is resolved by the external logging library from the configured
loggers; per the exact-match policy of the spec, the entry whose category
equals the record's category wins, and absence falls back to the global
default (the root entry). The resolution itself is not code under `src/`;
only the configuration it consumes (`buildLoggersConfig`) is. -/
def effectiveLevel (st : LoggerState) (category : List String) : String :=
  match (buildLoggersConfig st).find? (fun e => e.category == category) with
  | some e => e.lowestLevel
  | none => st.currentLogLevel

/-- The `validLevels` array of the `/api/log-level` POST handler. -/
def validLevels : List String :=
  ["debug", "info", "warning", "error", "fatal"]

/-- The request body of the `/api/log-level` POST handler. -/
structure LogLevelRequestBody where
  level : Option String
  category : Option (List String)
deriving Repr

/-- The handler's observable outcome: a 400 rejection with an error message,
or the success payload. -/
inductive LogLevelResponse where
  | badRequest : String → LogLevelResponse
  | success : String → String → Option (List String) → LogLevelResponse
deriving DecidableEq, Repr

/-- The `/api/log-level` POST handler from `server.ts`: reject a missing (or
falsy) `level` with 400; reject a level outside `validLevels` with 400;
otherwise read the old level, apply `setLogLevel` with the non-empty
category (if any), and report success. -/
def logLevelHandler (st : LoggerState) (body : LogLevelRequestBody) :
    LogLevelResponse × LoggerState :=
  match body.level with
  | none => (LogLevelResponse.badRequest "Missing level field in request body", st)
  | some lvl =>
    if lvl = "" then
      (LogLevelResponse.badRequest "Missing level field in request body", st)
    else if validLevels.contains lvl then
      let category :=
        match body.category with
        | some c => if 0 < c.length then some c else none
        | none => none
      (LogLevelResponse.success (getLogLevel st) lvl category,
       setLogLevel st lvl category)
    else
      (LogLevelResponse.badRequest "Invalid log level", st)

/-- Left-pad a number with zeros to the given width. -/
def padNum (len : Nat) (n : Nat) : String :=
  let s := toString n
  String.mk (List.replicate (len - s.length) '0') ++ s

/-- Civil date (year, month, day) from days since the Unix epoch, Gregorian
calendar (the standard era-based algorithm `Date` implements). -/
def civilFromDays (z : Int) : Int × Nat × Nat :=
  let z := z + 719468
  let era := Int.ediv z 146097
  let doe := (Int.emod z 146097).toNat
  let yoe := (doe - doe / 1460 + doe / 36524 - doe / 146096) / 365
  let y : Int := (yoe : Int) + era * 400
  let doy := doe - (365 * yoe + yoe / 4 - yoe / 100)
  let mp := (5 * doy + 2) / 153
  let d := doy - (153 * mp + 2) / 5 + 1
  let m := if mp < 10 then mp + 3 else mp - 9
  (if m ≤ 2 then y + 1 else y, m, d)

/-- The year part of `Date.prototype.toISOString`: four digits padded for
years 0–9999, otherwise the expanded signed six-digit form. -/
def isoYearString (y : Int) : String :=
  if y < 0 then "-" ++ padNum 6 (-y).toNat
  else if y ≤ 9999 then padNum 4 y.toNat
  else "+" ++ padNum 6 y.toNat

/-- `new Date(ms).toISOString()`: the UTC instant `ms` milliseconds from the
Unix epoch rendered as `YYYY-MM-DDTHH:mm:ss.sssZ`. -/
def isoOfEpochMillis (t : Int) : String :=
  let days := Int.ediv t 86400000
  let msOfDay := (Int.emod t 86400000).toNat
  let ymd := civilFromDays days
  let hh := msOfDay / 3600000
  let mm := msOfDay % 3600000 / 60000
  let ss := msOfDay % 60000 / 1000
  let ms := msOfDay % 1000
  isoYearString ymd.1 ++ "-" ++ padNum 2 ymd.2.1 ++ "-" ++ padNum 2 ymd.2.2 ++
    "T" ++ padNum 2 hh ++ ":" ++ padNum 2 mm ++ ":" ++ padNum 2 ss ++
    "." ++ padNum 3 ms ++ "Z"

/-- A log record as `customFormatter` consumes it: epoch-millisecond
timestamp, severity name, category path, and the message parts (already
stringified, as after `record.message.map(String)`). -/
structure LogRecord where
  timestamp : Int
  level : String
  category : List String
  message : List String
deriving Repr

/-- `customFormatter(record)` from `logger.ts`: ISO timestamp, uppercased
level, comma-joined category (`-` when empty) and the concatenated message
parts, joined by `|`. -/
def customFormatter (record : LogRecord) : String :=
  let timestamp := isoOfEpochMillis record.timestamp
  let level := jsToUpperCase record.level
  let tags :=
    if 0 < record.category.length then String.intercalate "," record.category else "-"
  let message := String.join record.message
  timestamp ++ "|" ++ level ++ "|" ++ tags ++ "|" ++ message

/-- A computation in an ambient-category context: given the current category
it either succeeds or fails, and records the category observed by each log
call it makes. Used to state the contract of the context-propagation
mechanism. -/
def Comp (α : Type) : Type :=
  List String → Except String α × List (List String)

/-- A computation that returns a value and logs nothing. -/
def compPure (a : α) : Comp α :=
  fun _ => (Except.ok a, [])

/-- Sequencing: run the first computation, then the continuation in the same
ambient category, concatenating the observed-category traces. -/
def compBind (m : Comp α) (k : α → Comp β) : Comp β :=
  fun c =>
    match m c with
    | (Except.ok a, t) =>
      let r := k a c
      (r.1, t ++ r.2)
    | (Except.error e, t) => (Except.error e, t)

/-- A log call: observes (and records) the current ambient category. -/
def logCat : Comp Unit :=
  fun c => (Except.ok (), [c])

/-- A failing computation (a thrown error). -/
def compFail (e : String) : Comp α :=
  fun _ => (Except.error e, [])

/-- Error handling: on failure of the first computation, run the handler in
the same ambient category. -/
def compCatch (m : Comp α) (h : String → Comp α) : Comp α :=
  fun c =>
    match m c with
    | (Except.ok a, t) => (Except.ok a, t)
    | (Except.error e, t) =>
      let r := h e c
      (r.1, t ++ r.2)

/-- Modelled from the spec: `withLogTag` re-exports the external logging
library's context-scoping primitive (implemented over `AsyncLocalStorage`);
its implementation is not code under `src/`. Per the spec, the whole dynamic
extent of `fn` observes `path` as its current category (the inner value
replaces, and does not concatenate with, the caller's), and the caller's
ambient category is what any code sequenced after the scope observes, on
every exit path from `fn`, including failure. -/
def runWithCategory (path : List String) (fn : Comp α) : Comp α :=
  fun _ => fn path

/-- A database modelled by the chronological log of executed SQL
statements. -/
abbrev DbLog : Type := List String

/-- `transaction(fn)` from `db.ts`, on an initialised database: execute
`BEGIN;`, run the callback (which executes its own statements and either
returns a value or throws), then `COMMIT;` and return the value on success,
or `ROLLBACK;` and rethrow the same error on failure. -/
def transaction (fn : DbLog → Except String α × List String) (db : DbLog) :
    Except String α × DbLog :=
  let db1 : DbLog := db ++ ["BEGIN;"]
  match fn db1 with
  | (Except.ok a, stmts) => (Except.ok a, db1 ++ stmts ++ ["COMMIT;"])
  | (Except.error e, stmts) => (Except.error e, db1 ++ stmts ++ ["ROLLBACK;"])

/-- The transaction-nesting delta of one SQL statement. -/
def txStmtDelta (s : String) : Int :=
  if s = "BEGIN;" then 1
  else if s = "COMMIT;" then -1
  else if s = "ROLLBACK;" then -1
  else 0

/-- Number of transactions left open by a statement log. -/
def openTxCount (l : List String) : Int :=
  (l.map txStmtDelta).sum

/-- True when a statement list contains no transaction-control statement of
its own. -/
def txControlFree (l : List String) : Bool :=
  l.all (fun s => !(s = "BEGIN;" || s = "COMMIT;" || s = "ROLLBACK;"))

/-- Helper: `openTxCount` is additive over concatenated statement logs. -/
theorem openTxCount_append (l1 l2 : List String) :
    openTxCount (l1 ++ l2) = openTxCount l1 + openTxCount l2 := by
  simp [openTxCount]

/-- Helper: a statement list without transaction-control statements leaves
the nesting count unchanged. -/
theorem openTxCount_of_txControlFree (l : List String) (h : txControlFree l = true) :
    openTxCount l = 0 := by
  induction l with
  | nil => rfl
  | cons s rest ih =>
    rw [txControlFree, List.all_cons, Bool.and_eq_true] at h
    have hs : txStmtDelta s = 0 := by
      rcases h with ⟨hs, _⟩
      rw [Bool.not_eq_true'] at hs
      simp only [Bool.or_eq_false_iff, decide_eq_false_iff_not] at hs
      simp [txStmtDelta, hs.1.1, hs.1.2, hs.2]
    have hr : openTxCount rest = 0 := ih (by rw [txControlFree]; exact h.2)
    show (List.map txStmtDelta (s :: rest)).sum = 0
    rw [List.map_cons, List.sum_cons, hs]
    rw [openTxCount] at hr
    rw [hr]
    omega

/-- C10: `transaction` is atomic with respect to its callback: it executes
`BEGIN;`, then the callback; on normal return the callback's result is
returned after `COMMIT;`, and on failure `ROLLBACK;` is executed and the
same error is rethrown, so a call to `transaction` never leaves a
transaction open, whether it returns or throws. -/
theorem transaction_atomic {α : Type}
    (fn : DbLog → Except String α × List String) (db : DbLog) :
    (∀ (a : α) (stmts : List String), fn (db ++ ["BEGIN;"]) = (Except.ok a, stmts) →
      transaction fn db = (Except.ok a, db ++ ["BEGIN;"] ++ stmts ++ ["COMMIT;"])) ∧
    (∀ (e : String) (stmts : List String), fn (db ++ ["BEGIN;"]) = (Except.error e, stmts) →
      transaction fn db = (Except.error e, db ++ ["BEGIN;"] ++ stmts ++ ["ROLLBACK;"])) ∧
    (txControlFree (fn (db ++ ["BEGIN;"])).2 = true →
      openTxCount (transaction fn db).2 = openTxCount db) := by
  refine ⟨?_, ?_, ?_⟩
  · intro a stmts h
    simp [transaction, h]
  · intro e stmts h
    simp [transaction, h]
  · intro h
    rcases hfn : fn (db ++ ["BEGIN;"]) with ⟨r, stmts⟩
    rw [hfn] at h
    have h0 := openTxCount_of_txControlFree stmts h
    have hb : openTxCount ["BEGIN;"] = 1 := by decide
    have hc : openTxCount ["COMMIT;"] = -1 := by decide
    have hrb : openTxCount ["ROLLBACK;"] = -1 := by decide
    cases r <;>
      simp only [transaction, hfn, openTxCount_append, h0, hb, hc, hrb] <;>
      omega

/-- C10 witness: a concrete committing callback, applied through
`transaction_atomic`. -/
theorem transaction_atomic_witness :
    transaction (fun _ => (Except.ok (42 : Nat), ["INSERT INTO users"])) ([] : DbLog)
      = (Except.ok 42, ["BEGIN;", "INSERT INTO users", "COMMIT;"]) ∧
    openTxCount (transaction (fun _ => (Except.ok (42 : Nat), ["INSERT INTO users"])) ([] : DbLog)).2
      = openTxCount ([] : DbLog) := by
  have h := transaction_atomic (fun _ => (Except.ok (42 : Nat), ["INSERT INTO users"])) ([] : DbLog)
  exact ⟨h.1 42 ["INSERT INTO users"] rfl, h.2.2 (by decide)⟩

/-- C7: in nested `runWithCategory` scopes the inner category fully replaces
the outer one for every log call in the inner dynamic extent, and the outer
category is restored exactly for code after the inner scope, on every exit
path including failure of the inner function. -/
theorem runWithCategory_replace_and_restore
    (outer inner c : List String) (e : String) :
    (runWithCategory outer (compBind logCat (fun _ =>
        compBind (runWithCategory inner logCat) (fun _ => logCat)))) c
      = (Except.ok (), [outer, inner, outer]) ∧
    (compBind (runWithCategory inner logCat) (fun _ => logCat)) c
      = (Except.ok (), [inner, c]) ∧
    (runWithCategory outer (compBind
        (compCatch (runWithCategory inner (compFail e)) (fun _ => compPure ()))
        (fun _ => logCat))) c
      = (Except.ok (), [outer]) := by
  exact ⟨rfl, rfl, rfl⟩

/-- C8: `customFormatter` is a pure function returning exactly the ISO-8601
timestamp, the uppercased severity, the comma-joined category (or `-` when
empty) and the concatenated message parts, joined by `|`; in particular for
level `info`, category `["app","db"]`, message `hello` it yields exactly
`<ISO(T)>|INFO|app,db|hello`. -/
theorem customFormatter_deterministic_shape :
    (∀ r : LogRecord, customFormatter r =
      isoOfEpochMillis r.timestamp ++ "|" ++ jsToUpperCase r.level ++ "|" ++
        (if 0 < r.category.length then String.intercalate "," r.category else "-") ++
        "|" ++ String.join r.message) ∧
    (∀ t : Int,
      customFormatter { timestamp := t, level := "info", category := ["app", "db"], message := ["hello"] }
        = isoOfEpochMillis t ++ "|INFO|app,db|hello") ∧
    customFormatter { timestamp := 1700000000000, level := "info", category := ["app", "db"], message := ["hello"] }
      = "2023-11-14T22:13:20.000Z|INFO|app,db|hello" := by
  have key : ∀ s : String,
      s ++ "|" ++ "INFO" ++ "|" ++ "app,db" ++ "|" ++ "hello" = s ++ "|INFO|app,db|hello" := by
    intro s
    simp only [String.append_assoc]
    congr 1
  refine ⟨fun r => rfl, fun t => ?_, by decide⟩
  calc customFormatter { timestamp := t, level := "info", category := ["app", "db"], message := ["hello"] }
      = isoOfEpochMillis t ++ "|" ++ "INFO" ++ "|" ++ "app,db" ++ "|" ++ "hello" := rfl
    _ = isoOfEpochMillis t ++ "|INFO|app,db|hello" := key _

/-- C4 counterexample: with a malformed config file present, `loadFullConfig`
does not fail and does not abort: it returns a fully resolved configuration
built from the remaining sources, with only a warning printed (the `true`
flag). -/
theorem loadFullConfig_malformed_fatal_counterexample :
    loadFullConfig emptyPartialConfig (parseCliArgs { config := none, database := none })
        FileState.invalid
      = (DEFAULT_CONFIG, true) := by
  decide

/-- C4 amended: a malformed config file is not fatal: `loadFullConfig`
catches the parse failure, prints a warning diagnostic, and continues with
the remaining sources (the file layer contributes nothing), returning the
same resolved configuration as when the file is missing. -/
theorem loadFullConfig_malformed_file_recovers
    (envConfig : PartialAppConfig) (cli : CliOptions) :
    loadFullConfig envConfig cli FileState.invalid
      = ((loadFullConfig envConfig cli FileState.absent).1, true) := by
  simp [loadFullConfig, parseTomlFile]

/-- Helper: `deepMerge` reads only the `server` part of the override for the
`server` part of the result. -/
theorem deepMerge_server_congr (d : AppConfig) (u v : PartialAppConfig)
    (h : u.server = v.server) : (deepMerge d u).server = (deepMerge d v).server := by
  simp [deepMerge, h]

/-- Helper: `deepMerge` reads only the `log` part of the override for the
`log` part of the result. -/
theorem deepMerge_log_congr (d : AppConfig) (u v : PartialAppConfig)
    (h : u.log = v.log) : (deepMerge d u).log = (deepMerge d v).log := by
  simp [deepMerge, h]

/-- Helper: after the CLI layer, `database.url` is exactly the CLI value and
the other sections are those of the env layer. -/
theorem mergeCli_shape (envConfig : PartialAppConfig) (cli : CliOptions) :
    deepMerge (deepMerge DEFAULT_CONFIG envConfig) (cliPartialConfig cli)
      = { database := { url := cli.database }
          server := (deepMerge DEFAULT_CONFIG envConfig).server
          log := (deepMerge DEFAULT_CONFIG envConfig).log } := by
  simp [deepMerge, cliPartialConfig]

/-- C1: `loadFullConfig` applies defaults, then environment, then
CLI-derived values, then the config file, the file having highest
precedence: for every environment with `PORT=4000`, every CLI argument list
without `--database`, and a config file whose server table sets `port=9000`
(and which does not set `database.url`), the resolved config has
`server.port = 9000` and `database.url = "app.db"`. -/
theorem loadFullConfig_file_highest_precedence
    (e : Env) (a : CliArgs) (doc sf : List (String × JsValue))
    (hport : e.PORT = some "4000")
    (hnodb : a.database = none)
    (hsrv : lookupField doc "server" = some (JsValue.obj sf))
    (hsport : lookupField sf "port" = some (JsValue.num 9000))
    (hfdb : (extractPartialConfig doc).database = none) :
    (loadFullConfig (loadConfigFromEnv e) (parseCliArgs a) (FileState.valid doc)).1.server.port
      = JsNumber.int 9000 ∧
    (loadFullConfig (loadConfigFromEnv e) (parseCliArgs a) (FileState.valid doc)).1.database.url
      = "app.db" := by
  obtain ⟨x, hx⟩ : ∃ x, (extractPartialConfig doc).server
      = some { host := x, port := some (JsNumber.int 9000) } := by
    simp [extractPartialConfig, hsrv, isObjectJS, getField, hsport]
  constructor
  · simp [loadFullConfig, parseTomlFile, deepMerge, hx]
  · simp [loadFullConfig, parseTomlFile, deepMerge, hfdb, cliPartialConfig, parseCliArgs, hnodb]

/-- C1 witness: the scenario at a concrete environment, argument list and
file. -/
theorem loadFullConfig_file_highest_precedence_witness :
    (loadFullConfig
        (loadConfigFromEnv { DB_PATH := none, HOST := none, PORT := some "4000", LOG_LEVEL := none })
        (parseCliArgs { config := none, database := none })
        (FileState.valid [("server", JsValue.obj [("port", JsValue.num 9000)])])).1.server.port
      = JsNumber.int 9000 ∧
    (loadFullConfig
        (loadConfigFromEnv { DB_PATH := none, HOST := none, PORT := some "4000", LOG_LEVEL := none })
        (parseCliArgs { config := none, database := none })
        (FileState.valid [("server", JsValue.obj [("port", JsValue.num 9000)])])).1.database.url
      = "app.db" :=
  loadFullConfig_file_highest_precedence _ _ _ [("port", JsValue.num 9000)]
    rfl rfl rfl rfl rfl

/-- C2 counterexample: the end-to-end part of the claim is false: env sets
`PORT=4000`, the config file's server table sets only `host`, yet the
resolved `server.port` is the compiled-in default `3000`, not the
environment's `4000`. -/
theorem file_host_only_keeps_env_port_counterexample :
    (loadFullConfig
        (loadConfigFromEnv { DB_PATH := none, HOST := none, PORT := some "4000", LOG_LEVEL := none })
        (parseCliArgs { config := none, database := none })
        (FileState.valid [("server", JsValue.obj [("host", JsValue.str "example.com")])])).1.server.port
      = JsNumber.int 3000 ∧
    ¬ ((loadFullConfig
        (loadConfigFromEnv { DB_PATH := none, HOST := none, PORT := some "4000", LOG_LEVEL := none })
        (parseCliArgs { config := none, database := none })
        (FileState.valid [("server", JsValue.obj [("host", JsValue.str "example.com")])])).1.server.port
      = JsNumber.int 4000) := by
  decide

/-- C2 amended: `deepMerge` itself does merge field-by-field (absent fields
leave the accumulated value untouched, a present nested section contributes
per field); but end to end, the file loader completes a server table that
sets only `host` with the compiled-in default port, so the resolved
`server.port` becomes `3000`, overriding an environment-supplied port. -/
theorem deepMerge_fieldwise_file_fills_server_defaults :
    (∀ (d : AppConfig) (u : PartialAppConfig),
      (u.database = none → (deepMerge d u).database = d.database) ∧
      (u.server = none → (deepMerge d u).server = d.server) ∧
      (u.log = none → (deepMerge d u).log = d.log) ∧
      (∀ p, u.database = some p → (deepMerge d u).database = { url := p.url.getD d.database.url }) ∧
      (∀ p, u.server = some p → (deepMerge d u).server
          = { host := p.host.getD d.server.host, port := p.port.getD d.server.port }) ∧
      (∀ p, u.log = some p → (deepMerge d u).log = { level := p.level.getD d.log.level })) ∧
    (∀ (e : Env) (a : CliArgs) (doc sf : List (String × JsValue)) (hostVal : String),
      e.PORT = some "4000" → a.database = none →
      lookupField doc "server" = some (JsValue.obj sf) →
      lookupField sf "host" = some (JsValue.str hostVal) →
      lookupField sf "port" = none →
      (loadFullConfig (loadConfigFromEnv e) (parseCliArgs a) (FileState.valid doc)).1.server
        = { host := hostVal, port := JsNumber.int 3000 }) := by
  constructor
  · intro d u
    refine ⟨fun h => by simp [deepMerge, h], fun h => by simp [deepMerge, h],
      fun h => by simp [deepMerge, h], fun p h => by simp [deepMerge, h],
      fun p h => by simp [deepMerge, h], fun p h => by simp [deepMerge, h]⟩
  · intro e a doc sf hostVal hport hnodb hsrv hhost hsport
    have hx : (extractPartialConfig doc).server
        = some { host := some hostVal, port := some (JsNumber.int 3000) } := by
      simp [extractPartialConfig, hsrv, isObjectJS, getField, hhost, hsport, DEFAULT_CONFIG]
    simp [loadFullConfig, parseTomlFile, deepMerge, hx]

/-- C2 witness: the field-by-field part at the empty override and the
end-to-end part at a concrete environment and file. -/
theorem deepMerge_fieldwise_file_fills_server_defaults_witness :
    (deepMerge DEFAULT_CONFIG emptyPartialConfig).database = DEFAULT_CONFIG.database ∧
    (loadFullConfig
        (loadConfigFromEnv { DB_PATH := none, HOST := none, PORT := some "4000", LOG_LEVEL := none })
        (parseCliArgs { config := none, database := none })
        (FileState.valid [("server", JsValue.obj [("host", JsValue.str "example.com")])])).1.server
      = { host := "example.com", port := JsNumber.int 3000 } :=
  ⟨(deepMerge_fieldwise_file_fills_server_defaults.1 DEFAULT_CONFIG emptyPartialConfig).1 rfl,
   deepMerge_fieldwise_file_fills_server_defaults.2 _ _ _ [("host", JsValue.str "example.com")]
     "example.com" rfl rfl rfl rfl rfl⟩

/-- C3 counterexample: a file whose known field `database.url` has the wrong
type (a number) does not fail: `parseTomlFile` returns normally with the
field dropped, contradicting the claim that the wrong-type case never
returns normally. -/
theorem parseTomlFile_wrong_type_counterexample :
    parseTomlFile (FileState.valid [("database", JsValue.obj [("url", JsValue.num 42)])])
      = Except.ok emptyPartialConfig := by
  rfl

/-- C3 amended: the file loader returns `{}` when the file does not exist
and fails (with a generic parse error, not a distinct `ConfigParseError`)
exactly when the file exists and cannot be read or parsed; known fields of
the wrong type never cause a failure: a non-string `database.url` is
silently dropped, and a non-number `server.port` is silently replaced by the
compiled-in default `3000`. -/
theorem parseTomlFile_error_iff_unparseable :
    (∀ fs : FileState, (∃ msg, parseTomlFile fs = Except.error msg) ↔ fs = FileState.invalid) ∧
    parseTomlFile FileState.absent = Except.ok emptyPartialConfig ∧
    (∀ (doc : List (String × JsValue)) (v : JsValue),
      lookupField doc "database" = some v →
      (∀ s : String, getField v "url" ≠ some (JsValue.str s)) →
      (extractPartialConfig doc).database = none) ∧
    (∀ (doc sf : List (String × JsValue)),
      lookupField doc "server" = some (JsValue.obj sf) →
      lookupField sf "port" = some (JsValue.boolVal true) →
      ∃ h, (extractPartialConfig doc).server
          = some { host := h, port := some (JsNumber.int 3000) }) := by
  refine ⟨?_, rfl, ?_, ?_⟩
  · intro fs
    constructor
    · rintro ⟨msg, hmsg⟩
      cases fs with
      | absent => simp [parseTomlFile] at hmsg
      | invalid => rfl
      | valid doc => simp [parseTomlFile] at hmsg
    · rintro rfl
      exact ⟨_, rfl⟩
  · intro doc v hdb hurl
    cases hobj : isObjectJS v with
    | false => simp [extractPartialConfig, hdb, hobj]
    | true =>
      rcases hu : getField v "url" with _ | w
      · simp [extractPartialConfig, hdb, hobj, hu]
      · cases w with
        | str s => exact absurd hu (hurl s)
        | num n => simp [extractPartialConfig, hdb, hobj, hu]
        | boolVal b => simp [extractPartialConfig, hdb, hobj, hu]
        | obj fields => simp [extractPartialConfig, hdb, hobj, hu]
        | arr elems => simp [extractPartialConfig, hdb, hobj, hu]
  · intro doc sf hdoc hp
    simp [extractPartialConfig, hdoc, isObjectJS, getField, hp, DEFAULT_CONFIG]

/-- C3 witness: the statement instantiated at a missing file, an invalid
file, a wrongly typed `database.url` and a wrongly typed `server.port`. -/
theorem parseTomlFile_error_iff_unparseable_witness :
    (∃ msg, parseTomlFile FileState.invalid = Except.error msg) ∧
    (extractPartialConfig [("database", JsValue.obj [("url", JsValue.num 42)])]).database = none ∧
    (∃ h, (extractPartialConfig [("server", JsValue.obj [("port", JsValue.boolVal true)])]).server
        = some { host := h, port := some (JsNumber.int 3000) }) := by
  refine ⟨(parseTomlFile_error_iff_unparseable.1 FileState.invalid).mpr rfl,
    parseTomlFile_error_iff_unparseable.2.2.1 _ (JsValue.obj [("url", JsValue.num 42)]) rfl ?_,
    parseTomlFile_error_iff_unparseable.2.2.2 _ [("port", JsValue.boolVal true)] rfl rfl⟩
  intro s
  simp [getField, lookupField]

/-- C9: `DB_PATH` can never influence the resolved `database.url`: the
resolved configuration is invariant under changes to `DB_PATH` (the CLI
layer always writes its own `database.url` after the env layer); with no
`--database` flag and a file that does not set `database.url`, the resolved
value is the CLI default `app.db`; meanwhile `getDbPath` in the database
module reads `DB_PATH` directly, bypassing the resolved config. -/
theorem dbPath_never_influences_database_url :
    (∀ (e : Env) (s : Option String) (cli : CliOptions) (fs : FileState),
      loadFullConfig (loadConfigFromEnv { e with DB_PATH := s }) cli fs
        = loadFullConfig (loadConfigFromEnv e) cli fs) ∧
    (∀ (e : Env) (a : CliArgs) (fs : FileState),
      a.database = none →
      (∀ p, parseTomlFile fs = Except.ok p → p.database = none) →
      (loadFullConfig (loadConfigFromEnv e) (parseCliArgs a) fs).1.database.url = "app.db") ∧
    (∀ (e : Env) (s : String), e.DB_PATH = some s → s ≠ "" → getDbPath e = s) := by
  refine ⟨?_, ?_, ?_⟩
  · intro e s cli fs
    have hs : (loadConfigFromEnv { e with DB_PATH := s }).server
        = (loadConfigFromEnv e).server := by
      simp [loadConfigFromEnv]
    have hl : (loadConfigFromEnv { e with DB_PATH := s }).log
        = (loadConfigFromEnv e).log := by
      simp [loadConfigFromEnv]
    have hC3 : deepMerge (deepMerge DEFAULT_CONFIG (loadConfigFromEnv { e with DB_PATH := s }))
          (cliPartialConfig cli)
        = deepMerge (deepMerge DEFAULT_CONFIG (loadConfigFromEnv e)) (cliPartialConfig cli) := by
      rw [mergeCli_shape, mergeCli_shape,
        deepMerge_server_congr DEFAULT_CONFIG _ _ hs, deepMerge_log_congr DEFAULT_CONFIG _ _ hl]
    cases hp : parseTomlFile fs <;> simp [loadFullConfig, hp, hC3]
  · intro e a fs hnodb hfile
    cases hp : parseTomlFile fs with
    | ok p =>
      have hpd : p.database = none := hfile p hp
      simp [loadFullConfig, hp, deepMerge, hpd, cliPartialConfig, parseCliArgs, hnodb]
    | error err =>
      simp [loadFullConfig, hp, deepMerge, emptyPartialConfig, cliPartialConfig, parseCliArgs, hnodb]
  · intro e s h hne
    simp [getDbPath, h, hne]

/-- C9 witness: a concrete environment with `DB_PATH` set, no `--database`
flag and no config file. -/
theorem dbPath_never_influences_database_url_witness :
    (loadFullConfig
        (loadConfigFromEnv { DB_PATH := some "secret.db", HOST := none, PORT := none, LOG_LEVEL := none })
        (parseCliArgs { config := none, database := none }) FileState.absent).1.database.url
      = "app.db" ∧
    getDbPath { DB_PATH := some "secret.db", HOST := none, PORT := none, LOG_LEVEL := none }
      = "secret.db" := by
  refine ⟨dbPath_never_influences_database_url.2.1 _ _ _ rfl ?_,
    dbPath_never_influences_database_url.2.2 _ "secret.db" rfl (by decide)⟩
  intro p hp
  simp [parseTomlFile] at hp
  subst hp
  rfl

/-- C5: category overrides and the global default are independent: from a
fresh registry, `setLogLevel("debug", ["a","b"])` followed by a global
`setLogLevel("error")` leaves the effective level of exactly `["a","b"]` at
`debug` and of every other category at `error`; every `setLogLevel` call
rebuilds the logger configuration from all stored overrides plus the
current global default, and `getLogLevel` still returns the global default
after a category-specific set. -/
theorem setLogLevel_category_global_independent (init : String) :
    effectiveLevel (setLogLevel (setLogLevel { categoryLogLevels := [], currentLogLevel := init }
        "debug" (some ["a", "b"])) "error" none) ["a", "b"] = "debug" ∧
    (∀ c : List String, c ≠ ["a", "b"] →
      effectiveLevel (setLogLevel (setLogLevel { categoryLogLevels := [], currentLogLevel := init }
          "debug" (some ["a", "b"])) "error" none) c = "error") ∧
    getLogLevel (setLogLevel { categoryLogLevels := [], currentLogLevel := init }
        "debug" (some ["a", "b"])) = init ∧
    getLogLevel (setLogLevel (setLogLevel { categoryLogLevels := [], currentLogLevel := init }
        "debug" (some ["a", "b"])) "error" none) = "error" ∧
    buildLoggersConfig (setLogLevel (setLogLevel { categoryLogLevels := [], currentLogLevel := init }
        "debug" (some ["a", "b"])) "error" none)
      = [{ category := [], lowestLevel := "error" },
         { category := ["a", "b"], lowestLevel := "debug" }] := by
  have hst : setLogLevel (setLogLevel { categoryLogLevels := [], currentLogLevel := init }
      "debug" (some ["a", "b"])) "error" none
      = { categoryLogLevels := [("a,b", "debug")], currentLogLevel := "error" } := rfl
  rw [hst]
  refine ⟨by decide, ?_, rfl, rfl, by decide⟩
  intro c hc
  by_cases h0 : c = []
  · subst h0
    decide
  · have h1 : (([] : List String) == c) = false := beq_eq_false_iff_ne.mpr (Ne.symm h0)
    have h2 : ((["a", "b"] : List String) == c) = false := beq_eq_false_iff_ne.mpr (Ne.symm hc)
    have hb : buildLoggersConfig { categoryLogLevels := [("a,b", "debug")], currentLogLevel := "error" }
        = [{ category := [], lowestLevel := "error" },
           { category := ["a", "b"], lowestLevel := "debug" }] := by decide
    unfold effectiveLevel
    rw [hb]
    simp [List.find?, h1, h2]

/-- C5 witness: the scenario at `init = "info"` and the other category
`["z"]`. -/
theorem setLogLevel_category_global_independent_witness :
    effectiveLevel (setLogLevel (setLogLevel { categoryLogLevels := [], currentLogLevel := "info" }
        "debug" (some ["a", "b"])) "error" none) ["a", "b"] = "debug" ∧
    effectiveLevel (setLogLevel (setLogLevel { categoryLogLevels := [], currentLogLevel := "info" }
        "debug" (some ["a", "b"])) "error" none) ["z"] = "error" ∧
    getLogLevel (setLogLevel { categoryLogLevels := [], currentLogLevel := "info" }
        "debug" (some ["a", "b"])) = "info" := by
  have h := setLogLevel_category_global_independent "info"
  exact ⟨h.1, h.2.1 ["z"] (by decide), h.2.2.1⟩

/-- C6: for every level string outside the severity enum, the level-change
operation is rejected (400) before any registry mutation: the handler
returns a bad-request response and the registry state afterwards is
identical to the state before the call. -/
theorem setLevel_invalid_rejected_before_mutation
    (st : LoggerState) (body : LogLevelRequestBody) (lvl : String)
    (hlvl : body.level = some lvl) (hinvalid : lvl ∉ validLevels) :
    (∃ msg, (logLevelHandler st body).1 = LogLevelResponse.badRequest msg) ∧
    (logLevelHandler st body).2 = st := by
  have hcontains : validLevels.contains lvl = false := by
    simpa using hinvalid
  by_cases h0 : lvl = ""
  · subst h0
    simp [logLevelHandler, hlvl]
  · simp [logLevelHandler, hlvl, h0, hcontains, hinvalid]

/-- C6 witness: the invalid level `bogus` against a concrete registry. -/
theorem setLevel_invalid_rejected_before_mutation_witness :
    (∃ msg, (logLevelHandler { categoryLogLevels := [], currentLogLevel := "info" }
        { level := some "bogus", category := none }).1 = LogLevelResponse.badRequest msg) ∧
    (logLevelHandler { categoryLogLevels := [], currentLogLevel := "info" }
        { level := some "bogus", category := none }).2
      = { categoryLogLevels := [], currentLogLevel := "info" } :=
  setLevel_invalid_rejected_before_mutation _ _ "bogus" rfl (by decide)
